import Mathlib

/-!
Verification of the orchestration core of the cecil multi-agent system.

This file shallowly embeds the Python orchestration code
(`src/cecil/graph/routing.py`, `src/cecil/graph/nodes.py`,
`src/cecil/state/schema.py`, `src/cecil/agents/base.py`,
`src/cecil/agents/project_manager.py`, `src/cecil/models/dynamic_loader.py`)
in Lean.  Pure text processing (Python's `str` methods, the specific regular
expressions used by the router, and the subset of `json.loads` relevant to the
router's inputs) is implemented executably over `List Char`; stateful code is
embedded as explicit state passing; code that can raise returns `Except`;
external effects (LLM calls, tool execution, the network-backed model
catalogue) are inputs supplied by the environment.
-/

namespace Cecil

/-! ### Python string primitives (over `List Char`) -/

/-- Python whitespace, as recognised by `str.strip`/`str.rstrip`/`str.isspace`
and (the identical set) by the regex class `\s` on `str` patterns: the six
ASCII whitespace characters, the information separators, next-line, no-break
space, and the Unicode space separators. -/
def isPyWs (c : Char) : Bool :=
  c = ' ' || c = '\t' || c = '\n' || c = '\r' || c = '\x0b' || c = '\x0c' ||
  c = '\x1c' || c = '\x1d' || c = '\x1e' || c = '\x1f' ||
  c = '\x85' || c = '\xa0' || c = '\u1680' ||
  c = '\u2000' || c = '\u2001' || c = '\u2002' || c = '\u2003' ||
  c = '\u2004' || c = '\u2005' || c = '\u2006' || c = '\u2007' ||
  c = '\u2008' || c = '\u2009' || c = '\u200A' ||
  c = '\u2028' || c = '\u2029' || c = '\u202F' || c = '\u205F' || c = '\u3000'

/-- Drop leading Python whitespace (`str.lstrip()`, and the greedy regex `\s*`). -/
def lstripL : List Char → List Char
  | [] => []
  | c :: cs => if isPyWs c then lstripL cs else c :: cs

/-- `str.rstrip()`. -/
def rstripL (cs : List Char) : List Char :=
  (lstripL cs.reverse).reverse

/-- `str.strip()`. -/
def stripL (cs : List Char) : List Char :=
  rstripL (lstripL cs)

/-- JSON inter-token whitespace (`json.decoder.WHITESPACE`, the class
`[ \t\n\r]`): strictly narrower than Python's `str.strip`/`\s` class. -/
def isJsonWs (c : Char) : Bool :=
  c = ' ' || c = '\t' || c = '\n' || c = '\r'

/-- Skip leading JSON whitespace (the decoder's `_w(s, idx).end()` skips). -/
def jsonLstrip : List Char → List Char
  | [] => []
  | c :: cs => if isJsonWs c then jsonLstrip cs else c :: cs

/-- `str.lower()` (the inputs of interest are ASCII). -/
def lowerL (cs : List Char) : List Char :=
  cs.map Char.toLower

/-- Match a literal at the head of the text; on success return the remainder. -/
def matchLit : List Char → List Char → Option (List Char)
  | [], cs => some cs
  | _ :: _, [] => none
  | p :: ps, c :: cs => if c = p then matchLit ps cs else none

/-- Does `pat` occur at the head of the text? -/
def startsWithL (pat cs : List Char) : Bool :=
  (matchLit pat cs).isSome

/-- Does `suffix` occur at the end of the text (Python `str.endswith`)? -/
def endsWithL (suffix cs : List Char) : Bool :=
  startsWithL suffix.reverse cs.reverse

/-- Python's substring test `pat in text`. -/
def containsSub (pat : List Char) : List Char → Bool
  | [] => startsWithL pat []
  | c :: cs => startsWithL pat (c :: cs) || containsSub pat cs

/-! ### JSON values and the subset of `json.loads` the router relies on

Python's `json.loads` is standard-library code; the embedding below covers the
JSON grammar (objects, arrays, strings with escapes, numbers, `true`/`false`/
`null`) together with the non-standard constants `NaN`/`Infinity`/`-Infinity`
that `json.loads` accepts by default, rejects raw control characters inside
string literals exactly as `json.loads` does, skips only the decoder's
`[ \t\n\r]` whitespace between tokens, requires the whole input to be
consumed, and keeps the *last* value for a duplicated object key, like
Python's `dict`. -/

/-- JSON values as produced by `json.loads`.  A number is kept as a decimal
mantissa/exponent pair (value = mant * 10 ^ exp); the claims need number
truthiness (`mant ≠ 0`) only.  `nan` and `inf` are the floats produced by the
decoder's default `parse_constant` for the non-standard constants `NaN`,
`Infinity` and `-Infinity`, which `json.loads` accepts by default. -/
inductive JVal where
  | null
  | bool (b : Bool)
  | num (mant : Int) (exp : Int)
  | str (s : List Char)
  | arr (xs : List JVal)
  | obj (kvs : List (List Char × JVal))
  | nan
  | inf (neg : Bool)
  deriving Inhabited

/-- Python truthiness of a decoded JSON value (`bool(v)`); `bool(nan)` and
`bool(±inf)` are both `True`. -/
def jTruthy : JVal → Bool
  | .null => false
  | .bool b => b
  | .num m _ => m ≠ 0
  | .str s => s ≠ []
  | .arr xs => !xs.isEmpty
  | .obj kvs => !kvs.isEmpty
  | .nan => true
  | .inf _ => true

/-- Value of a single JSON escape character (after the backslash), for the
single-character escapes. -/
def escChar (e : Char) : Option Char :=
  if e = '"' then some '"'
  else if e = '\\' then some '\\'
  else if e = '/' then some '/'
  else if e = 'b' then some '\x08'
  else if e = 'f' then some '\x0c'
  else if e = 'n' then some '\n'
  else if e = 'r' then some '\r'
  else if e = 't' then some '\t'
  else none

/-- Hexadecimal digit value, for `\uXXXX` escapes. -/
def hexVal (c : Char) : Option Nat :=
  if '0' ≤ c ∧ c ≤ '9' then some (c.toNat - 48)
  else if 'a' ≤ c ∧ c ≤ 'f' then some (c.toNat - 87)
  else if 'A' ≤ c ∧ c ≤ 'F' then some (c.toNat - 55)
  else none

/-- Scan a JSON string body (the input starts right after the opening quote);
returns the decoded content and the remainder after the closing quote.  Raw
control characters (code point < 0x20) are rejected, as in `json.loads`. -/
def scanStr : List Char → Option (List Char × List Char)
  | [] => none
  | c :: cs =>
    if c = '"' then some ([], cs)
    else if c = '\\' then
      match cs with
      | 'u' :: h1 :: h2 :: h3 :: h4 :: cs4 =>
        match hexVal h1, hexVal h2, hexVal h3, hexVal h4 with
        | some a, some b, some c2, some d =>
          match scanStr cs4 with
          | some (body, r) => some (Char.ofNat (((a * 16 + b) * 16 + c2) * 16 + d) :: body, r)
          | none => none
        | _, _, _, _ => none
      | e :: cs2 =>
        match escChar e with
        | some d =>
          match scanStr cs2 with
          | some (body, r) => some (d :: body, r)
          | none => none
        | none => none
      | [] => none
    else if c.toNat < 0x20 then none
    else
      match scanStr cs with
      | some (body, r) => some (c :: body, r)
      | none => none

/-- Maximal run of decimal digits at the head of the text. -/
def scanDigits : List Char → List Char × List Char
  | [] => ([], [])
  | c :: cs =>
    if c.isDigit then
      let (d, r) := scanDigits cs
      (c :: d, r)
    else ([], c :: cs)

/-- Numeric value of a digit run. -/
def digitsToNat (ds : List Char) : Nat :=
  ds.foldl (fun a c => a * 10 + (c.toNat - 48)) 0

/-- Fraction part `(\.[0-9]+)?` of a JSON number: digits and remainder. -/
def scanFrac : List Char → Option (List Char × List Char)
  | '.' :: r =>
    let (d, rest) := scanDigits r
    if d = [] then none else some (d, rest)
  | cs => some ([], cs)

/-- Exponent part `([eE][+-]?[0-9]+)?` of a JSON number. -/
def scanExp : List Char → Option (Int × List Char)
  | [] => some (0, [])
  | c :: r =>
    if c = 'e' ∨ c = 'E' then
      let (sgn, r2) : Int × List Char :=
        match r with
        | '+' :: t => (1, t)
        | '-' :: t => (-1, t)
        | t => (1, t)
      let (d, rest) := scanDigits r2
      if d = [] then none else some (sgn * (digitsToNat d : Int), rest)
    else some (0, c :: r)

/-- Scan a JSON number (strict grammar: no leading zeros, fraction and exponent
digits mandatory when the marker is present).  Returns mantissa, decimal
exponent and the remainder. -/
def scanNum (cs : List Char) : Option (Int × Int × List Char) :=
  let (neg, cs1) : Bool × List Char :=
    match cs with
    | '-' :: r => (true, r)
    | _ => (false, cs)
  let (ip, cs2) := scanDigits cs1
  if ip = [] then none
  else if ip.length > 1 ∧ ip.headI = '0' then none
  else
    match scanFrac cs2 with
    | none => none
    | some (fp, cs3) =>
      match scanExp cs3 with
      | none => none
      | some (e, cs4) =>
        let mag : Int := (digitsToNat ip : Int) * (10 : Int) ^ fp.length + (digitsToNat fp : Int)
        let mant := if neg then -mag else mag
        some (mant, e - (fp.length : Int), cs4)

/-- `dict` assignment while building a JSON object: a repeated key keeps its
position and takes the new value, otherwise the pair is appended. -/
def dictSet (kvs : List (List Char × JVal)) (k : List Char) (v : JVal) :
    List (List Char × JVal) :=
  if kvs.any (fun p => p.1 = k) then
    kvs.map (fun p => if p.1 = k then (k, v) else p)
  else kvs ++ [(k, v)]

/-- `dict.get(k, default)` on a decoded JSON object. -/
def dictGet (kvs : List (List Char × JVal)) (k : List Char) (default : JVal) : JVal :=
  match kvs.find? (fun p => p.1 = k) with
  | some p => p.2
  | none => default

mutual

/-- Parse one JSON value (leading whitespace allowed); `fuel` bounds the
recursion depth and is amply supplied by `jParse`. -/
def parseVal : Nat → List Char → Option (JVal × List Char)
  | 0, _ => none
  | f + 1, cs =>
    match jsonLstrip cs with
    | '{' :: rest =>
      match jsonLstrip rest with
      | '}' :: r2 => some (.obj [], r2)
      | r2 => parseMembers f r2 []
    | '[' :: rest =>
      match jsonLstrip rest with
      | ']' :: r2 => some (.arr [], r2)
      | r2 => parseItems f r2 []
    | '"' :: rest =>
      match scanStr rest with
      | some (s, r) => some (.str s, r)
      | none => none
    | 't' :: rest =>
      match matchLit ['r', 'u', 'e'] rest with
      | some r => some (.bool true, r)
      | none => none
    | 'f' :: rest =>
      match matchLit ['a', 'l', 's', 'e'] rest with
      | some r => some (.bool false, r)
      | none => none
    | 'n' :: rest =>
      match matchLit ['u', 'l', 'l'] rest with
      | some r => some (.null, r)
      | none => none
    | cs2 =>
      match scanNum cs2 with
      | some (m, e, r) => some (.num m e, r)
      | none =>
        match matchLit ("NaN".data) cs2 with
        | some r => some (.nan, r)
        | none =>
          match matchLit ("Infinity".data) cs2 with
          | some r => some (.inf false, r)
          | none =>
            match matchLit ("-Infinity".data) cs2 with
            | some r => some (.inf true, r)
            | none => none

/-- Parse the members of a JSON object, positioned at a key (whitespace already
skipped), accumulating the decoded pairs. -/
def parseMembers : Nat → List Char → List (List Char × JVal) →
    Option (JVal × List Char)
  | 0, _, _ => none
  | f + 1, cs, acc =>
    match cs with
    | '"' :: rest =>
      match scanStr rest with
      | some (k, r1) =>
        match jsonLstrip r1 with
        | ':' :: r2 =>
          match parseVal f r2 with
          | some (v, r3) =>
            let acc2 := dictSet acc k v
            match jsonLstrip r3 with
            | ',' :: r4 => parseMembers f (jsonLstrip r4) acc2
            | '}' :: r4 => some (.obj acc2, r4)
            | _ => none
          | none => none
        | _ => none
      | none => none
    | _ => none

/-- Parse the items of a JSON array, positioned at a value. -/
def parseItems : Nat → List Char → List JVal → Option (JVal × List Char)
  | 0, _, _ => none
  | f + 1, cs, acc =>
    match parseVal f cs with
    | some (v, r1) =>
      match jsonLstrip r1 with
      | ',' :: r2 => parseItems f r2 (acc ++ [v])
      | ']' :: r2 => some (.arr (acc ++ [v]), r2)
      | _ => none
    | none => none

end

/-- `json.loads`: parse a complete JSON document; trailing JSON whitespace is
allowed, trailing garbage is an error (modelled as `none`). -/
def jParse (cs : List Char) : Option JVal :=
  match parseVal (cs.length + 1) cs with
  | some (v, rest) => if jsonLstrip rest = [] then some v else none
  | none => none

/-! ### The specific regular expressions used by `routing.py`

Each of the patterns appearing in `_extract_routing` (and in
`ProjectManagerAgent.invoke`) is implemented as a dedicated searcher with
`re.search` semantics: the match starting at the leftmost possible position
wins, with the pattern-internal backtracking each pattern actually needs. -/

/-- Tail of the fenced-block patterns after the literal opener:
`\s*(\{.*?\})\s*` followed by the closing literal three backticks, with
`re.DOTALL`.  The lazy `.*?` yields the first `'}'` whose continuation
matches; returns the captured group `\{.*?\}`. -/
def fenceBody : List Char → List Char → Option (List Char)
  | [], _ => none
  | c :: cs, acc =>
    if c = '}' ∧ startsWithL ['`', '`', '`'] (lstripL cs) then
      some ('{' :: acc.reverse ++ ['}'])
    else fenceBody cs (c :: acc)

/-- See `fenceBody`; the input is positioned right after the opening literal. -/
def fenceTail (cs : List Char) : Option (List Char) :=
  match lstripL cs with
  | '{' :: rest => fenceBody rest []
  | _ => none

/-- `re.search` driver for the fenced-block patterns: try each start position
left to right; at a position where the opening literal matches, the rest of
the pattern must match too, else the search continues further right. -/
def searchFence (opener : List Char) : List Char → Option (List Char)
  | [] => none
  | c :: cs =>
    match matchLit opener (c :: cs) with
    | some rest =>
      match fenceTail rest with
      | some g => some g
      | none => searchFence opener cs
    | none => searchFence opener cs

/-- Greedy `([^"]*)` followed by a literal closing quote: the capture and the
remainder after the quote. -/
def scanNoQuote : List Char → Option (List Char × List Char)
  | [] => none
  | c :: cs =>
    if c = '"' then some ([], cs)
    else
      match scanNoQuote cs with
      | some (g, r) => some (c :: g, r)
      | none => none

/-- Tail `\s*:\s*"([^"]*)"` of the pattern `"next_agent"\s*:\s*"([^"]*)"`. -/
def naTail (cs : List Char) : Option (List Char) :=
  match lstripL cs with
  | ':' :: r1 =>
    match lstripL r1 with
    | '"' :: r2 => (scanNoQuote r2).map Prod.fst
    | _ => none
  | _ => none

/-- `re.search(r'"next_agent"\s*:\s*"([^"]*)"', text)`: the captured group. -/
def searchNextAgent : List Char → Option (List Char)
  | [] => none
  | c :: cs =>
    match matchLit ("\"next_agent\"".data) (c :: cs) with
    | some rest =>
      match naTail rest with
      | some g => some g
      | none => searchNextAgent cs
    | none => searchNextAgent cs

/-- Tail `\s*:\s*"(.*)` (with `re.DOTALL`) of the pattern
`"sub_task"\s*:\s*"(.*)`: the greedy group is the whole remainder. -/
def stTail (cs : List Char) : Option (List Char) :=
  match lstripL cs with
  | ':' :: r1 =>
    match lstripL r1 with
    | '"' :: r2 => some r2
    | _ => none
  | _ => none

/-- `re.search(r'"sub_task"\s*:\s*"(.*)', text, re.DOTALL)`: the captured group. -/
def searchSubTask : List Char → Option (List Char)
  | [] => none
  | c :: cs =>
    match matchLit ("\"sub_task\"".data) (c :: cs) with
    | some rest =>
      match stTail rest with
      | some g => some g
      | none => searchSubTask cs
    | none => searchSubTask cs

/-- Continuation `\s*,?\s*\}\s*$` after the quote of the pattern used by
`re.sub(r'"\s*,?\s*\}\s*$', '', raw_val)`: greedy whitespace, an optional
comma, more whitespace, a closing brace, then only whitespace to the end. -/
def tailBraceMatch (cs : List Char) : Bool :=
  let r1 := lstripL cs
  let r2 := match r1 with
    | ',' :: t => lstripL t
    | _ => r1
  match r2 with
  | '}' :: t => t.all isPyWs
  | _ => false

/-- `re.sub(r'"\s*,?\s*\}\s*$', '', raw_val)`: when the anchored pattern
matches (necessarily into the end of the string), the matched span is deleted. -/
def reSubTrailing : List Char → List Char
  | [] => []
  | c :: cs =>
    if c = '"' ∧ tailBraceMatch cs then []
    else c :: reSubTrailing cs

/-! ### `cecil/state/schema.py`: roles and the shared state -/

/-- `ALL_ROLES` from `schema.py` (in source order). -/
def ALL_ROLES : List String :=
  ["project_manager", "quant_researcher", "portfolio_analyst",
   "software_developer", "research_intelligence"]

/-- `SPECIALIST_ROLES` from `schema.py` (in source order). -/
def SPECIALIST_ROLES : List String :=
  ["quant_researcher", "portfolio_analyst", "software_developer",
   "research_intelligence"]

/-- The LangGraph termination sentinel `"__end__"`. -/
def END_SENTINEL : String :=
  "__end__"

/-- `_VALID_TARGETS = {*ALL_ROLES, "__end__"}` from `routing.py`. -/
def VALID_TARGETS : List String :=
  ALL_ROLES ++ [END_SENTINEL]

/-- A LangChain tool-call request carried by an `AIMessage`
(name + arguments + correlation id; arguments are opaque here). -/
structure ToolCall where
  name : String
  args : String
  id : String
  deriving DecidableEq, Repr

/-- The LangChain message kinds the orchestration core manipulates.
`content` is the textual content (multimodal list content is outside the
modelled subset; the code stringifies it anyway). -/
inductive Msg where
  | system (content : String)
  | human (content : String)
  | ai (content : String) (toolCalls : List ToolCall)
  | tool (content : String) (toolCallId : String)
  deriving DecidableEq, Repr

/-- `getattr(m, 'content', '') or ''` — every modelled message carries a
string content. -/
def Msg.content : Msg → String
  | .system c => c
  | .human c => c
  | .ai c _ => c
  | .tool c _ => c

/-- `isinstance(msg, AIMessage)`. -/
def Msg.isAi : Msg → Bool
  | .ai _ _ => true
  | _ => false

/-- `isinstance(msg, ToolMessage)`. -/
def Msg.isTool : Msg → Bool
  | .tool _ _ => true
  | _ => false

/-- One entry of the `results` accumulator (`{"agent", "summary",
"tool_calls_made"}` as built by the node and agent code). -/
structure ResultEntry where
  agent : String
  summary : String
  toolCallsMade : Nat
  deriving DecidableEq, Repr

/-- The `AgentState` TypedDict of `schema.py`.  Missing keys read through
`state.get(k, default)` are modelled by the corresponding defaults. -/
structure AgentState where
  messages : List Msg := []
  task : String := ""
  currentAgent : String := ""
  subTask : JVal := .str []
  results : List ResultEntry := []
  agentOutputs : List (String × String) := []
  iteration : Int := 0
  maxIterations : Int := 10

/-- `_merge_agent_outputs` from `schema.py`: append with a blank-line
separator for a key already present, insert otherwise. -/
def merge_agent_outputs (existing new : List (String × String)) :
    List (String × String) :=
  new.foldl
    (fun merged kv =>
      if merged.any (fun p => p.1 = kv.1) then
        merged.map (fun p => if p.1 = kv.1 then (p.1, p.2 ++ "\n\n" ++ kv.2) else p)
      else merged ++ [kv])
    existing

/-! ### `cecil/graph/routing.py` -/

/-- The candidate-extraction step shared by the two JSON paths of
`_extract_routing` (lines 124-134 and 137-147): read `next_agent` with default
`""`, `.strip().lower()` it (an `AttributeError` on a non-string is caught by
the surrounding `except`, which falls through exactly like an invalid
candidate, hence `none`), normalise termination synonyms, read `sub_task`
with default `""`, and accept only candidates in `_VALID_TARGETS`. -/
def jsonAttempt (data : JVal) : Option (String × JVal) :=
  match data with
  | .obj kvs =>
    match dictGet kvs ("next_agent".data) (.str []) with
    | .str raw =>
      let c0 := lowerL (stripL raw)
      let candidate :=
        if ["end", "__end__", "done", "finish", "complete"].any
            (fun w => w.data = c0)
        then END_SENTINEL.data else c0
      let sub_task := dictGet kvs ("sub_task".data) (.str [])
      if VALID_TARGETS.any (fun t => t.data = candidate) then
        some (String.mk candidate, sub_task)
      else none
    | _ => none
  | _ => none

/-- The `end_keywords` list of `_extract_routing`. -/
def END_KEYWORDS : List String :=
  ["__end__", "complete", "all done", "final answer", "task complete"]

/-- `_extract_routing(text)` from `routing.py`: fenced JSON block, whole-text
JSON, targeted regex extraction, role-name scan, end-keyword scan, in that
order; the sub-task is a decoded JSON value in the JSON paths (the code does
not check its type there) and a string in all later paths. -/
def extract_routing (text : List Char) : String × JVal :=
  let viaFence := fun (opener : String) =>
    match searchFence opener.data text with
    | some g =>
      match jParse g with
      | some data => jsonAttempt data
      | none => none
    | none => none
  match viaFence ("```json") with
  | some r => r
  | none =>
  match viaFence ("```") with
  | some r => r
  | none =>
  match (jParse (stripL text)).bind jsonAttempt with
  | some r => r
  | none =>
  let viaRegex :=
    match searchNextAgent text with
    | some cap =>
      let c0 := lowerL (stripL cap)
      let candidate :=
        if ["end", "__end__", "done", "finish", "complete"].any
            (fun w => w.data = c0)
        then END_SENTINEL.data else c0
      let sub_task :=
        match searchSubTask text with
        | some g =>
          let raw := rstripL g
          let raw :=
            if endsWithL ['"', '}'] raw then raw.take (raw.length - 2)
            else if endsWithL ['"'] raw then raw.take (raw.length - 1)
            else raw
          reSubTrailing raw
        | none => []
      if VALID_TARGETS.any (fun t => t.data = candidate) then
        some (String.mk candidate, sub_task)
      else none
    | none => none
  match viaRegex with
  | some (c, s) => (c, .str s)
  | none =>
  let text_lower := lowerL text
  match SPECIALIST_ROLES.find? (fun t => containsSub t.data text_lower) with
  | some t => (t, .str [])
  | none =>
  if END_KEYWORDS.any (fun kw => containsSub kw.data text_lower) then
    (END_SENTINEL, .str [])
  else
    (END_SENTINEL, .str [])

/-- The scan for the PM's last AI message (`routing.py` lines 50-55): walk the
messages in reverse, take the first `AIMessage` with truthy content. -/
def findPmText : List Msg → String
  | [] => ""
  | m :: rest =>
    match m with
    | .ai c _ => if c ≠ "" then c else findPmText rest
    | _ => findPmText rest

/-- `sub_task.strip()` (line 67): raises `AttributeError` unless the decoded
sub-task is a string. -/
def pyStripAttr : JVal → Except String (List Char)
  | .str s => .ok (stripL s)
  | _ => .error ("AttributeError: strip on non-string sub_task")

/-- The eagerly evaluated logging argument `sub_task[:80] if sub_task else
"(none)"` (line 98): slicing a truthy non-sliceable value (number, `True`,
dict) raises `TypeError`; falsy values and strings/lists are fine. -/
def pySliceArg : JVal → Except String Unit
  | v =>
    if jTruthy v then
      match v with
      | .str _ => .ok ()
      | .arr _ => .ok ()
      | _ => .error ("TypeError: unsliceable sub_task in logging argument")
    else .ok ()

/-- The three core specialists of the coverage guard (lines 83-91). -/
def CORE_SPECIALISTS : List String :=
  ["research_intelligence", "quant_researcher", "portfolio_analyst"]

/-- `route_from_pm(state)` from `routing.py`.  Python exceptions escaping the
function are modelled as `Except.error`. -/
def route_from_pm (state : AgentState) : Except String String :=
  let iteration := state.iteration
  let max_iter := state.maxIterations
  if iteration ≥ max_iter then .ok END_SENTINEL
  else
    let pm_text := findPmText state.messages.reverse
    if pm_text = "" then .ok END_SENTINEL
    else
      let (next_agent, sub_task) := extract_routing pm_text.data
      let afterGuards : Except String String :=
        let coverageEnd :=
          CORE_SPECIALISTS.all (fun r => state.agentOutputs.any (fun p => p.1 = r)) ∧
          next_agent ≠ END_SENTINEL ∧
          state.agentOutputs.any (fun p => p.1 = next_agent)
        if coverageEnd then .ok END_SENTINEL
        else
          match pySliceArg sub_task with
          | .error e => .error e
          | .ok _ => .ok next_agent
      if next_agent ≠ END_SENTINEL ∧ next_agent ≠ "project_manager" ∧
          state.agentOutputs.any (fun p => p.1 = next_agent) then
        match pyStripAttr sub_task with
        | .error e => .error e
        | .ok stripped =>
          if stripped = [] then .ok END_SENTINEL
          else afterGuards
      else afterGuards

/-! ### State deltas and their merge into the shared state

Node functions return a `dict` holding only the keys they update; LangGraph
merges it into the shared state using the per-field policies declared in
`AgentState` (`add_messages` appends the new messages, `operator.add` appends
`results`, `_merge_agent_outputs` merges `agent_outputs`, plain fields are
overwritten).  `Option` encodes key presence in the returned `dict`. -/

/-- A state delta as returned by the node functions. -/
structure Delta where
  messages : List Msg := []
  currentAgent : Option String := none
  results : List ResultEntry := []
  subTask : Option JVal := none
  agentOutputs : Option (List (String × String)) := none
  iteration : Option Int := none

/-- The delta shape returned by `BaseAgent.invoke` (lines 364-369 of
`base.py`): exactly the keys `messages`, `current_agent`, `results`,
`agent_outputs` — in particular never `iteration` or `sub_task`. -/
structure AgentDelta where
  messages : List Msg := []
  currentAgent : Option String := none
  results : List ResultEntry := []
  agentOutputs : Option (List (String × String)) := none

/-- View an agent's delta as a general state delta (absent keys stay absent). -/
def AgentDelta.toDelta (d : AgentDelta) : Delta :=
  { messages := d.messages, currentAgent := d.currentAgent,
    results := d.results, agentOutputs := d.agentOutputs }

/-- LangGraph's merge of a node's delta into the shared state. -/
def applyDelta (st : AgentState) (d : Delta) : AgentState :=
  { st with
    messages := st.messages ++ d.messages
    results := st.results ++ d.results
    currentAgent := d.currentAgent.getD st.currentAgent
    subTask := d.subTask.getD st.subTask
    agentOutputs :=
      match d.agentOutputs with
      | some n => merge_agent_outputs st.agentOutputs n
      | none => st.agentOutputs
    iteration := d.iteration.getD st.iteration }

/-- `s[:n]` on a Python string. -/
def strTake (s : String) (n : Nat) : String :=
  String.mk (s.data.take n)

/-! ### `cecil/agents/project_manager.py` -/

/-- One fenced-block attempt of the sub-task extraction in
`ProjectManagerAgent.invoke` (lines 242-254): on a regex match, parse the
group; on success read `data.get("sub_task", "")` and stop the pattern loop,
on a parse failure fall through to the next pattern. -/
def pmFenceAttempt (opener : String) (text : List Char) : Option JVal :=
  match searchFence opener.data text with
  | some g =>
    match jParse g with
    | some data =>
      match data with
      | .obj kvs => some (dictGet kvs ("sub_task".data) (.str []))
      | _ => none
    | none => none
  | none => none

/-- `ProjectManagerAgent.invoke` (lines 124-291 of `project_manager.py`).
The model's reply is an environment input: `response` is the content of the
`AIMessage` obtained from the LLM call (the hard-timeout path synthesises a
JSON reply, which is just a particular value of this input).  The prompt
construction (lines 135-210) only affects what is sent to the model, never the
returned delta.  Note the returned `dict` has no `agent_outputs` key. -/
def project_manager_invoke (state : AgentState) (response : String) : Delta :=
  let final_text := response
  let e1 : JVal :=
    match pmFenceAttempt ("```json") final_text.data with
    | some v => v
    | none =>
      match pmFenceAttempt ("```") final_text.data with
      | some v => v
      | none => .str []
  let e2 : JVal :=
    if jTruthy e1 then e1
    else
      match jParse (stripL final_text.data) with
      | some (.obj kvs) => dictGet kvs ("sub_task".data) (.str [])
      | _ => e1
  let e3 : JVal :=
    if jTruthy e2 then e2
    else
      match searchSubTask final_text.data with
      | some g =>
        let raw := rstripL g
        let raw :=
          if endsWithL ['"', '}'] raw then raw.take (raw.length - 2)
          else if endsWithL ['"'] raw then raw.take (raw.length - 1)
          else raw
        let raw := reSubTrailing raw
        if raw.length > 30 then .str raw else e2
      | none => e2
  { messages := [.ai response []]
    currentAgent := some ("project_manager")
    results := [{ agent := "project_manager", summary := strTake final_text 3000,
                  toolCallsMade := 0 }]
    subTask := some e3 }

/-! ### `cecil/graph/nodes.py` -/

/-- `project_manager_node(state)`: run the PM agent and add
`delta["iteration"] = state.get("iteration", 0) + 1`. -/
def project_manager_node (state : AgentState) (response : String) : Delta :=
  let delta := project_manager_invoke state response
  { delta with iteration := some (state.iteration + 1) }

/-- `_specialist_node(role, state)`: the specialist agent's `invoke` outcome
(the delta of `BaseAgent.invoke`, or a raised exception modelled as
`Except.error`) is an environment input; an exception is caught and converted
into the synthetic failure delta, so the wrapper itself never raises. -/
def specialist_node (role : String) (invokeResult : Except String AgentDelta) : Delta :=
  match invokeResult with
  | .ok delta => delta.toDelta
  | .error exc =>
    let error_msg :=
      "Agent " ++ role ++ " encountered an error and could not complete: " ++ exc
    { messages := [.ai error_msg []]
      currentAgent := some role
      results := [{ agent := role, summary := error_msg, toolCallsMade := 0 }]
      agentOutputs := some [(role, error_msg)] }

/-! ### The compiled graph of `cecil/graph/builder.py`

Entry point `project_manager`; a conditional edge maps `route_from_pm`'s
result to one of the four specialist nodes or to `END`; every specialist edge
returns to `project_manager`.  The environment supplies, per cycle, the PM
model reply and the specialist `invoke` outcome. -/

/-- The environment of one task invocation: the PM's model replies and the
specialists' invocation outcomes, per orchestration cycle. -/
structure OrchEnv where
  pmResponse : Nat → String
  specialistDelta : Nat → Except String AgentDelta

/-- Execution of the compiled graph, counting specialist hops.  Each cycle
runs `project_manager_node`, merges its delta, routes via `route_from_pm`, and
either stops (`__end__`, an unmapped target, or a raised exception) or runs
the routed specialist node, merges its delta, and loops.  `fuel` bounds the
recursion for totality; the claims quantify over it. -/
def graph_run (env : OrchEnv) : Nat → Nat → AgentState → Nat
  | 0, _, _ => 0
  | fuel + 1, n, st =>
    let st1 := applyDelta st (project_manager_node st (env.pmResponse n))
    match route_from_pm st1 with
    | .error _ => 0
    | .ok target =>
      if target ∈ SPECIALIST_ROLES then
        let st2 := applyDelta st1 (specialist_node target (env.specialistDelta n))
        1 + graph_run env fuel (n + 1) st2
      else 0

/-! ### `cecil/agents/base.py`: context budgeting helpers -/

/-- `_MAX_TOOL_ROUNDS`. -/
def MAX_TOOL_ROUNDS : Nat := 3

/-- `_MAX_EMPTY_RETRIES`. -/
def MAX_EMPTY_RETRIES : Nat := 2

/-- `_MAX_TOOL_RESULT_CHARS`. -/
def MAX_TOOL_RESULT_CHARS : Nat := 2000

/-- `_COMPACT_TOOL_CHARS`. -/
def COMPACT_TOOL_CHARS : Nat := 500

/-- `_MAX_TOTAL_CONTEXT_CHARS`. -/
def MAX_TOTAL_CONTEXT_CHARS : Nat := 12000

/-- `sum(len(getattr(m, 'content', '') or '') for m in working)`. -/
def totalChars (working : List Msg) : Nat :=
  (working.map (fun m => m.content.length)).sum

/-- `_has_content(msg)`: truthiness of the stripped string content. -/
def has_content (m : Msg) : Bool :=
  stripL m.content.data ≠ []

/-- The reverse scan of `_compact_working_context` for the index of the last
`AIMessage` (`-1`, i.e. `none`, when there is none). -/
def lastAiIdxAux : List Msg → Nat → Option Nat → Option Nat
  | [], _, acc => acc
  | m :: rest, i, acc => lastAiIdxAux rest (i + 1) (if m.isAi then some i else acc)

/-- See `lastAiIdxAux`. -/
def lastAiIdx (working : List Msg) : Option Nat :=
  lastAiIdxAux working 0 none

/-- `_compact_working_context(working)`: with `last_ai_idx` the index of the
last `AIMessage` (return unchanged when `last_ai_idx <= 0`), every
`ToolMessage` strictly before it whose content exceeds `_COMPACT_TOOL_CHARS`
is shrunk in place to its first 500 characters plus a trimming marker. -/
def compact_working_context (working : List Msg) : List Msg :=
  match lastAiIdx working with
  | none => working
  | some 0 => working
  | some k =>
    working.enum.map fun p =>
      if p.1 < k then
        match p.2 with
        | .tool c id =>
          if c.length > COMPACT_TOOL_CHARS then
            .tool (strTake c COMPACT_TOOL_CHARS ++ " ... [earlier result trimmed]") id
          else p.2
        | _ => p.2
      else p.2

/-- The selection walk of `_hard_trim_context` over the removable middle
segment: the source iterates the index range `range(2, max(2, len(working) -
2))` in increasing order, collecting each truthy-content message for removal
until the remaining total is within the target, then pops the collected
indices; this structural walk over the middle performs the same selection
(`total` is the running `total - removed_chars`). -/
def trimMid (target : Nat) : Nat → List Msg → List Msg
  | _, [] => []
  | total, m :: rest =>
    if total ≤ target then m :: rest
    else if m.content.length ≠ 0 then trimMid target (total - m.content.length) rest
    else m :: trimMid target total rest

/-- `_hard_trim_context(working, target_chars)`: drop truthy-content messages
from the removable middle (everything between the first two and the last two
messages) until the total content size is within `target_chars`. -/
def hard_trim_context (working : List Msg) (target_chars : Nat) : List Msg :=
  if working.length ≤ 4 then working
  else
    working.take 2
      ++ trimMid target_chars (totalChars working)
           ((working.drop 2).take (working.length - 4))
      ++ working.drop (working.length - 2)

/-- Lines 170-179 of `BaseAgent.invoke`: one round's context maintenance —
compaction from round `_COMPACT_AFTER_ROUND` (= 1) on, then the hard trim only
when the total still exceeds `_MAX_TOTAL_CONTEXT_CHARS`. -/
def invokeContextStep (round : Nat) (working : List Msg) : List Msg :=
  let w1 := if round ≥ 1 then compact_working_context working else working
  if totalChars w1 > MAX_TOTAL_CONTEXT_CHARS then
    hard_trim_context w1 MAX_TOTAL_CONTEXT_CHARS
  else w1

/-- Thousands-separated rendering of a natural number (the `{n:,}` format used
by the truncation note), built over the reversed digit string. -/
def commaRevAux : List Char → Nat → List Char
  | [], _ => []
  | c :: cs, k =>
    if k = 3 then ',' :: c :: commaRevAux cs 1
    else c :: commaRevAux cs (k + 1)

/-- `f"{n:,}"` for a natural number. -/
def intComma (n : Nat) : String :=
  String.mk ((commaRevAux (toString n).data.reverse 0).reverse)

/-- `_truncate_tool_result(text, tool_name)`: cap a tool result at
`_MAX_TOOL_RESULT_CHARS`, appending the truncation note (the JSON and the
plain branches of the source compute the same cut; `tool_name` is only
logged). -/
def truncate_tool_result (text : String) : String :=
  if text.length ≤ MAX_TOOL_RESULT_CHARS then text
  else
    let note := "\n... [truncated from " ++ intComma text.length ++ " to "
      ++ intComma MAX_TOOL_RESULT_CHARS ++ " chars]"
    strTake text (MAX_TOOL_RESULT_CHARS - note.length) ++ note

/-! ### `cecil/models/dynamic_loader.py`

The module-level `_failed_models` set and the cached catalogue returned by the
network-backed `_fetch_available_models()` are passed explicitly.  Membership
is all the code tests, so the set is a duplicate-free list. -/

/-- `FALLBACK_MODELS["general"]`. -/
def FALLBACK_GENERAL : String := "accounts/fireworks/models/glm-5"

/-- `_best_available(candidates)`: the first candidate not yet failed; when
every candidate has failed, clear the failed set and return the first
candidate (or the hard fallback when the list is empty).  Returns the chosen
model and the updated failed set. -/
def best_available (candidates : List String) (failed : List String) :
    String × List String :=
  match candidates.find? (fun m => !failed.contains m) with
  | some m => (m, failed)
  | none => (candidates.headD FALLBACK_GENERAL, [])

/-- `mark_model_failed(model_id)`: add to the session failed set. -/
def mark_model_failed (model_id : String) (failed : List String) : List String :=
  if failed.contains model_id then failed else failed ++ [model_id]

/-- `get_next_model(category, current_model)`: mark the current model failed,
pick `_best_available` among the catalogue's candidates for the category, and
return `None` when the pick equals the model that just failed. -/
def get_next_model (catalog : List (String × List String))
    (category current_model : String) (failed : List String) :
    Option String × List String :=
  let failed1 := mark_model_failed current_model failed
  let candidates := ((catalog.find? (fun p => p.1 = category)).map Prod.snd).getD []
  let (next_model, failed2) := best_available candidates failed1
  if next_model = current_model then (none, failed2) else (some next_model, failed2)

/-! ### `_parse_text_tool_calls` from `base.py` -/

/-- `\s*:\s*` between two literals. -/
def wsColon (cs : List Char) : Option (List Char) :=
  match lstripL cs with
  | ':' :: t => some (lstripL t)
  | _ => none

/-- `\s*,\s*` between two literals. -/
def wsComma (cs : List Char) : Option (List Char) :=
  match lstripL cs with
  | ',' :: t => some (lstripL t)
  | _ => none

/-- `"([^"]+)"`: a quote, one or more non-quote characters (the capture), a
closing quote. -/
def scanName (cs : List Char) : Option (List Char × List Char) :=
  match cs with
  | '"' :: r =>
    match scanNoQuote r with
    | some (g, rest) => if g = [] then none else some (g, rest)
    | none => none
  | _ => none

/-- `(\{[^}]*\})`: the parameters group, braces included. -/
def scanParams : List Char → List Char → Option (List Char × List Char)
  | [], _ => none
  | c :: cs, acc =>
    if c = '}' then some ('{' :: acc.reverse ++ ['}'], cs)
    else scanParams cs (c :: acc)

/-- Tail of text-tool-call pattern 1 after its opening `\{`:
`"type"\s*:\s*"function"\s*,\s*"name"\s*:\s*"([^"]+)"\s*,\s*"parameters"\s*:\s*(\{[^}]*\})\s*\}`. -/
def ttcTail1 (cs : List Char) : Option (List Char × List Char × List Char) := do
  let r1 ← matchLit ("\"type\"".data) cs
  let r2 ← wsColon r1
  let r3 ← matchLit ("\"function\"".data) r2
  let r4 ← wsComma r3
  let r5 ← matchLit ("\"name\"".data) r4
  let r6 ← wsColon r5
  let (nm, r7) ← scanName r6
  let r8 ← wsComma r7
  let r9 ← matchLit ("\"parameters\"".data) r8
  let r10 ← wsColon r9
  match r10 with
  | '{' :: r11 =>
    let (ps, r12) ← scanParams r11 []
    match lstripL r12 with
    | '}' :: r13 => some (nm, ps, r13)
    | _ => none
  | _ => none

/-- Tail of text-tool-call pattern 2 after its opening `\{`:
`"name"\s*:\s*"([^"]+)"\s*,\s*"parameters"\s*:\s*(\{[^}]*\})\s*\}`. -/
def ttcTail2 (cs : List Char) : Option (List Char × List Char × List Char) := do
  let r1 ← matchLit ("\"name\"".data) cs
  let r2 ← wsColon r1
  let (nm, r3) ← scanName r2
  let r4 ← wsComma r3
  let r5 ← matchLit ("\"parameters\"".data) r4
  let r6 ← wsColon r5
  match r6 with
  | '{' :: r7 =>
    let (ps, r8) ← scanParams r7 []
    match lstripL r8 with
    | '}' :: r9 => some (nm, ps, r9)
    | _ => none
  | _ => none

/-- `re.finditer` driver for the two text-tool-call patterns: scan left to
right, non-overlapping matches, resuming after each match.  `fuel` bounds the
recursion and is amply supplied at the call site. -/
def finditerTtc (tail : List Char → Option (List Char × List Char × List Char)) :
    Nat → List Char → List (List Char × List Char)
  | 0, _ => []
  | _, [] => []
  | f + 1, c :: cs =>
    if c = '{' then
      match tail cs with
      | some (nm, ps, rest) => (nm, ps) :: finditerTtc tail f rest
      | none => finditerTtc tail f cs
    else finditerTtc tail f cs

/-- `_parse_text_tool_calls(text)`: matches of pattern 1, falling back to
pattern 2 when pattern 1 yielded no call; a match only becomes a call when its
parameters group parses as JSON (`json.loads` failures are skipped).  The
random `uuid4` id suffix of the source is modelled by the match index; the id
is only used to correlate a tool call with its `ToolMessage`. -/
def parse_text_tool_calls (text : String) : List ToolCall :=
  let t := text.data
  let mk := fun (ms : List (List Char × List Char)) =>
    (ms.filter (fun p => (jParse p.2).isSome)).enum.map
      (fun q => ToolCall.mk (String.mk q.2.1) (String.mk q.2.2)
        ("text_call_" ++ toString q.1))
  let calls1 := mk (finditerTtc ttcTail1 (t.length + 1) t)
  if calls1 ≠ [] then calls1
  else mk (finditerTtc ttcTail2 (t.length + 1) t)

/-! ### The `BaseAgent.invoke` round loop (lines 169-369 of `base.py`)

The loop's interaction with the outside world — the model, the fallback
chooser, and the tools — is an environment input: outcome of the n-th
`llm.invoke` attempt, of the n-th `_try_fallback_model` call (which model
object comes back is irrelevant to the control flow, only whether one does),
and of the n-th executed tool invocation. -/

/-- Outcome of one `llm.invoke(working)` attempt: the hard wall-clock timeout,
a raised exception (its message string), or an `AIMessage` reply with content
and native structured tool calls. -/
inductive LLMOutcome where
  | timeout
  | exc (message : String)
  | resp (content : String) (toolCalls : List ToolCall)

/-- The environment of a single `BaseAgent.invoke` run. -/
structure InvokeEnv where
  llm : Nat → LLMOutcome
  fallbackModel : Nat → Option String
  toolResult : Nat → Except String String

/-- The keyword list of the recoverable-error classifier (lines 218-225). -/
def RECOVERABLE_KEYWORDS : List String :=
  ["no healthy upstream", "model not found", "404", "503",
   "502", "unavailable", "not available",
   "timed out", "timeout", "read timeout", "connect timeout",
   "400", "invalid_request_error", "missing tool calls",
   "tool_calls_section", "malformed",
   "429", "rate limit", "rate_limit", "too many requests"]

/-- `is_recoverable` (lines 217-225): any keyword occurs in the lower-cased
exception text. -/
def isRecoverable (excMsg : String) : Bool :=
  RECOVERABLE_KEYWORDS.any (fun kw => containsSub kw.data (lowerL excMsg.data))

/-- The nudge `HumanMessage` for an empty response (lines 257-264). -/
def nudgeMsg (tools : List String) : Msg :=
  .human ("Your response was empty. You MUST call at least one tool "
    ++ "to get real data. Here are your available tools: "
    ++ String.intercalate (", ") tools
    ++ ". Call one now to gather data, then provide decisive, actionable analysis.")

/-- The forced-retry `HumanMessage` for a toolless first round (lines 295-302). -/
def forceToolMsg (tools : List String) : Msg :=
  .human ("Your response did not call any tools. You MUST call tools to get real data.\n"
    ++ "Available tools: " ++ String.intercalate (", ") tools ++ "\n"
    ++ "Call at least one tool NOW using the function calling mechanism. "
    ++ "Do NOT write about calling tools — actually invoke them.")

/-- The mutable locals of the round loop. -/
structure LoopSt where
  working : List Msg
  newMessages : List Msg
  toolCallsMade : Nat
  emptyRetries : Nat
  llmCalls : Nat
  fbCalls : Nat
  toolExecs : Nat

/-- What one `BaseAgent.invoke` run produced: the accumulated new messages and
tool-call count, the propagated exception if one escaped, and how many
`llm.invoke` attempts were made. -/
structure InvokeResult where
  newMessages : List Msg
  toolCallsMade : Nat
  raised : Option String
  llmAttempts : Nat

/-- Normal (non-raising) loop exit. -/
def loopExit (s : LoopSt) : InvokeResult :=
  { newMessages := s.newMessages, toolCallsMade := s.toolCallsMade,
    raised := none, llmAttempts := s.llmCalls }

/-- Tool-call execution (lines 312-340): count every requested call, look the
name up in the role's tool set (an unknown name yields a structured error
without executing anything; a raising tool yields a structured error result),
truncate, and append the `ToolMessage` to both message lists. -/
def execToolCalls (env : InvokeEnv) (tools : List String) :
    List ToolCall → LoopSt → LoopSt
  | [], s => s
  | tc :: rest, s =>
    let known := tools.contains tc.name
    let result : String :=
      if known then
        match env.toolResult s.toolExecs with
        | .ok r => r
        | .error e => "\x7b\"error\": \"" ++ e ++ "\"\x7d"
      else ("\x7b\"error\": \"Unknown tool: " ++ tc.name ++ "\"\x7d")
    let tm := Msg.tool (truncate_tool_result result) tc.id
    execToolCalls env tools rest
      { s with
        working := s.working ++ [tm]
        newMessages := s.newMessages ++ [tm]
        toolCallsMade := s.toolCallsMade + 1
        toolExecs := s.toolExecs + (if known then 1 else 0) }

/-- The `for _round in range(_MAX_TOOL_ROUNDS)` loop of `BaseAgent.invoke`
(lines 169-340).  `remaining` is the number of loop iterations left and
`round` the current `_round` value; note every `continue` — including the
timeout-fallback retry — moves on to the next iteration of the `range` loop. -/
def invokeLoop (env : InvokeEnv) (tools : List String) :
    Nat → Nat → LoopSt → InvokeResult
  | 0, _, s => loopExit s
  | remaining + 1, round, s =>
    let s := { s with working := invokeContextStep round s.working }
    match env.llm s.llmCalls with
    | .timeout =>
      let s := { s with llmCalls := s.llmCalls + 1 }
      match env.fallbackModel s.fbCalls with
      | some _ =>
        invokeLoop env tools remaining (round + 1) { s with fbCalls := s.fbCalls + 1 }
      | none =>
        let s := { s with fbCalls := s.fbCalls + 1 }
        if s.newMessages ≠ [] then loopExit s
        else
          { newMessages := s.newMessages, toolCallsMade := s.toolCallsMade,
            raised := some ("TimeoutError: LLM hard timeout, no fallback available"),
            llmAttempts := s.llmCalls }
    | .exc m =>
      let s := { s with llmCalls := s.llmCalls + 1 }
      let giveUp : InvokeResult :=
        if s.newMessages ≠ [] then loopExit s
        else
          { newMessages := s.newMessages, toolCallsMade := s.toolCallsMade,
            raised := some m, llmAttempts := s.llmCalls }
      if isRecoverable m then
        match env.fallbackModel s.fbCalls with
        | some _ =>
          invokeLoop env tools remaining (round + 1) { s with fbCalls := s.fbCalls + 1 }
        | none => giveUp
      else giveUp
    | .resp content toolCalls =>
      let s := { s with llmCalls := s.llmCalls + 1 }
      if toolCalls = [] ∧ stripL content.data = [] then
        -- empty response: nudge up to the retry cap
        let er := s.emptyRetries + 1
        if er ≥ MAX_EMPTY_RETRIES then loopExit { s with emptyRetries := er }
        else
          invokeLoop env tools remaining (round + 1)
            { s with emptyRetries := er, working := s.working ++ [nudgeMsg tools] }
      else
        let actual :=
          if toolCalls = [] ∧ stripL content.data ≠ [] then parse_text_tool_calls content
          else toolCalls
        let resp := Msg.ai content toolCalls
        let s := { s with newMessages := s.newMessages ++ [resp],
                          working := s.working ++ [resp] }
        if actual = [] then
          if round = 0 ∧ s.toolCallsMade = 0 ∧ tools ≠ [] then
            invokeLoop env tools remaining (round + 1)
              { s with working := s.working ++ [forceToolMsg tools] }
          else loopExit s
        else
          invokeLoop env tools remaining (round + 1) (execToolCalls env tools actual s)

/-- The final-text scan (lines 351-356), over the reversed new messages. -/
def findFinalText : List Msg → String
  | [] => ""
  | m :: rest =>
    match m with
    | .ai c _ => if stripL c.data ≠ [] then c else findFinalText rest
    | _ => findFinalText rest

/-- `BaseAgent.invoke(state, sub_task=...)`: run the round loop from the
initial two-message working set (system prompt + constructed task prompt,
lines 83-163; the prompt text itself is environment input here) and package
the delta (lines 358-369).  A propagated exception is `Except.error`; the
second component counts `llm.invoke` attempts. -/
def base_invoke (env : InvokeEnv) (tools : List String) (role : String)
    (sys_msg human_msg : Msg) : Except String AgentDelta × Nat :=
  let s0 : LoopSt :=
    { working := [sys_msg, human_msg], newMessages := [], toolCallsMade := 0,
      emptyRetries := 0, llmCalls := 0, fbCalls := 0, toolExecs := 0 }
  let r := invokeLoop env tools MAX_TOOL_ROUNDS 0 s0
  match r.raised with
  | some e => (.error e, r.llmAttempts)
  | none =>
    let final_text := findFinalText r.newMessages.reverse
    (.ok { messages := r.newMessages
           currentAgent := some role
           results := [{ agent := role, summary := strTake final_text 3000,
                         toolCallsMade := r.toolCallsMade }]
           agentOutputs := some [(role, strTake final_text 3000)] },
     r.llmAttempts)

/-!  ## Theorems for the claims  -/

/-- C9: for every exception raised by a specialist agent's `invoke`,
`_specialist_node` does not propagate it: it returns a delta whose
`agent_outputs` maps the role to the error description, whose `results` list
records the failure for that role with `tool_calls_made = 0`, and whose
`messages` carry the error text, so the orchestration loop continues. -/
theorem C9_specialist_node_catches (role exc : String) :
    specialist_node role (.error exc) =
      { messages := [.ai ("Agent " ++ role ++
          " encountered an error and could not complete: " ++ exc) []]
        currentAgent := some role
        results := [{ agent := role
                      summary := "Agent " ++ role ++
                        " encountered an error and could not complete: " ++ exc
                      toolCallsMade := 0 }]
        subTask := none
        agentOutputs := some [(role, "Agent " ++ role ++
          " encountered an error and could not complete: " ++ exc)]
        iteration := none } := rfl

/-- C8: `get_next_model(category, m)` marks `m` failed (idempotently) and
returns the first candidate of the category not in the failed set; when every
candidate has been marked failed the failed set is reset and the first
candidate is selected again; and the `None` sentinel is returned exactly when
the selected candidate equals the failed model `m`. -/
theorem C8_get_next_model_spec (catalog : List (String × List String))
    (category m : String) (failed : List String) :
    mark_model_failed m (mark_model_failed m failed) = mark_model_failed m failed
    ∧ (mark_model_failed m failed).contains m = true
    ∧ (∀ c, (((catalog.find? (fun p => p.1 = category)).map Prod.snd).getD []).find?
          (fun x => !(mark_model_failed m failed).contains x) = some c →
        get_next_model catalog category m failed = (some c, mark_model_failed m failed))
    ∧ ((((catalog.find? (fun p => p.1 = category)).map Prod.snd).getD []).find?
          (fun x => !(mark_model_failed m failed).contains x) = none →
        get_next_model catalog category m failed =
          (if (((catalog.find? (fun p => p.1 = category)).map Prod.snd).getD []).headD
                FALLBACK_GENERAL = m
           then none
           else some ((((catalog.find? (fun p => p.1 = category)).map Prod.snd).getD
             []).headD FALLBACK_GENERAL), []))
    ∧ ((get_next_model catalog category m failed).1 = none ↔
        (best_available (((catalog.find? (fun p => p.1 = category)).map Prod.snd).getD [])
          (mark_model_failed m failed)).1 = m) := by
  have hmem : (mark_model_failed m failed).contains m = true := by
    by_cases h : m ∈ failed
    · simp [mark_model_failed, h]
    · simp [mark_model_failed, h]
  have hidem : mark_model_failed m (mark_model_failed m failed)
      = mark_model_failed m failed := by
    conv_lhs => rw [mark_model_failed]
    rw [if_pos hmem]
  refine ⟨hidem, hmem, ?_, ?_, ?_⟩
  · intro c hc
    have hcm : c ≠ m := by
      intro h
      have hp := List.find?_some hc
      rw [h, hmem] at hp
      simp at hp
    simp only [get_next_model, best_available]
    rw [hc]
    simp [hcm]
  · intro hn
    simp only [get_next_model, best_available]
    rw [hn]
    split <;> simp_all
  · simp only [get_next_model, best_available]
    cases hf : (((catalog.find? (fun p => p.1 = category)).map Prod.snd).getD []).find?
        (fun x => !(mark_model_failed m failed).contains x) with
    | none =>
      by_cases hb : (((catalog.find? (fun p => p.1 = category)).map Prod.snd).getD
          []).head?.getD FALLBACK_GENERAL = m
      · simp [hb]
      · simp [hb]
    | some c =>
      have hcm : c ≠ m := by
        intro h
        have hp := List.find?_some hf
        rw [h, hmem] at hp
        simp at hp
      simp [hcm]

/-- C8 witness: a category with candidates `m1, m2` where `m1` fails: the
theorem yields `get_next_model "general" "m1" = (some "m2", {m1})`. -/
theorem C8_witness :
    get_next_model [("general", ["m1", "m2"])] "general" "m1" [] =
      (some ("m2"), ["m1"]) :=
  (C8_get_next_model_spec [("general", ["m1", "m2"])] "general" "m1" []).2.2.1
    "m2" (by decide)

/-- The concrete state of the C10 counterexample: a fresh task, no specialist
outputs yet. -/
def C10state : AgentState :=
  { messages := [.human ("Analyze AAPL")], task := "Analyze AAPL",
    iteration := 0, maxIterations := 10 }

/-- The PM reply of the C10 counterexample: a routing decision naming a
specialist with a sub-task. -/
def C10response : String :=
  "\x7b\"next_agent\": \"quant_researcher\", \"sub_task\": \"Get the current price of AAPL\"\x7d"

/-- C10 counterexample: after this Project Manager turn the merged state's
`agent_outputs` has no `"project_manager"` entry at all — the PM delta carries
no `agent_outputs` key — contradicting the claim that the PM turn's delta
populates `agent_outputs` for the `project_manager` role. -/
theorem C10_counterexample :
    (project_manager_node C10state C10response).agentOutputs = none
    ∧ (applyDelta C10state (project_manager_node C10state C10response)).agentOutputs.find?
        (fun p => p.1 = "project_manager") = none := by
  constructor
  · rfl
  · rfl

/-- C10 amended: the Project Manager turn's delta consists of `messages`,
`current_agent`, `results` and `sub_task` only; it never carries an
`agent_outputs` key, so merging a PM turn leaves `agent_outputs` unchanged
and the router's own text is never recorded under a `project_manager` key by
the PM turn. -/
theorem C10_amended (state : AgentState) (response : String) :
    (project_manager_invoke state response).agentOutputs = none
    ∧ (project_manager_node state response).agentOutputs = none
    ∧ (applyDelta state (project_manager_node state response)).agentOutputs
        = state.agentOutputs := by
  refine ⟨rfl, rfl, ?_⟩
  simp [applyDelta, project_manager_node, project_manager_invoke]

/-! Helper lemmas about `trimMid` and `hard_trim_context`. -/

theorem totalChars_append (a b : List Msg) :
    totalChars (a ++ b) = totalChars a + totalChars b := by
  simp [totalChars]

theorem totalChars_cons (m : Msg) (rest : List Msg) :
    totalChars (m :: rest) = m.content.length + totalChars rest := by
  simp [totalChars]

theorem trimMid_le (tgt : Nat) : ∀ (tot : Nat) (mid : List Msg),
    totalChars (trimMid tgt tot mid) ≤ totalChars mid := by
  intro tot mid
  induction mid generalizing tot with
  | nil => simp [trimMid]
  | cons m rest ih =>
    simp only [trimMid]
    split
    · exact le_refl _
    · split
      · calc totalChars (trimMid tgt (tot - m.content.length) rest)
            ≤ totalChars rest := ih _
          _ ≤ totalChars (m :: rest) := by rw [totalChars_cons]; omega
      · rw [totalChars_cons, totalChars_cons]
        have := ih tot
        omega

/-- The selection walk either reaches the target or keeps only empty-content
messages. -/
theorem trimMid_spec (tgt : Nat) : ∀ (tot : Nat) (mid : List Msg),
    totalChars mid ≤ tot →
    tot - (totalChars mid - totalChars (trimMid tgt tot mid)) ≤ tgt
    ∨ ∀ m ∈ trimMid tgt tot mid, m.content.length = 0 := by
  intro tot mid
  induction mid generalizing tot with
  | nil => intro _; right; intro m hm; simp [trimMid] at hm
  | cons m rest ih =>
    intro hle
    rw [totalChars_cons] at hle
    simp only [trimMid]
    split
    · left
      rw [totalChars_cons]
      omega
    · rename_i hgt
      split
      · rename_i hlen
        have hr : totalChars rest ≤ tot - m.content.length := by omega
        rcases ih (tot - m.content.length) hr with h | h
        · left
          have hsub := trimMid_le tgt (tot - m.content.length) rest
          rw [totalChars_cons]
          omega
        · right; exact h
      · rename_i hlen
        have hzero : m.content.length = 0 := by omega
        have hr : totalChars rest ≤ tot := by omega
        rcases ih tot hr with h | h
        · left
          have hsub := trimMid_le tgt tot rest
          rw [totalChars_cons, totalChars_cons]
          omega
        · right
          intro x hx
          rw [List.mem_cons] at hx
          rcases hx with hx | hx
          · rw [hx]; exact hzero
          · exact h _ hx

/-- Splitting a working set into its protected head, removable middle, and
protected tail. -/
theorem working_decomp (w : List Msg) (h : 4 ≤ w.length) :
    w.take 2 ++ ((w.drop 2).take (w.length - 4) ++ w.drop (w.length - 2)) = w := by
  have h1 : (w.drop 2).drop (w.length - 4) = w.drop (w.length - 2) := by
    rw [List.drop_drop]
    congr 1
    omega
  rw [← h1, List.take_append_drop, List.take_append_drop]

/-- A 7000-character message content for the C5 counterexample. -/
def bigA : String := String.mk (List.replicate 7000 'a')

/-- A second 7000-character message content for the C5 counterexample. -/
def bigB : String := String.mk (List.replicate 7000 'b')

/-- The C5 counterexample working set: two huge protected messages, an
empty-content `AIMessage` in the removable middle, and a small final
exchange. -/
def C5working : List Msg :=
  [.human bigA, .human bigB, .ai ("") [], .human ("c"), .ai ("d") []]

theorem bigA_length : bigA.length = 7000 :=
  List.length_replicate 7000 'a'

theorem bigB_length : bigB.length = 7000 :=
  List.length_replicate 7000 'b'

theorem C5working_chars : totalChars C5working = 14002 := by
  simp only [totalChars, C5working, Msg.content, List.map_cons, List.map_nil,
    List.sum_cons, List.sum_nil, bigA_length, bigB_length]
  decide

theorem C5working_step : invokeContextStep 1 C5working = C5working := by
  have hcompact : compact_working_context C5working = C5working := by
    simp [compact_working_context, C5working, lastAiIdx, lastAiIdxAux, Msg.isAi,
      List.enum, List.enumFrom]
  have hlen : C5working.length = 5 := by simp [C5working]
  have hmid : (C5working.drop 2).take (C5working.length - 4) = [Msg.ai ("") []] := by
    simp [C5working]
  have htail : C5working.drop (C5working.length - 2)
      = [Msg.human ("c"), Msg.ai ("d") []] := by
    simp [C5working]
  have htrimmid : trimMid MAX_TOTAL_CONTEXT_CHARS 14002 [Msg.ai ("") []]
      = [Msg.ai ("") []] := by decide
  have htrim : hard_trim_context C5working MAX_TOTAL_CONTEXT_CHARS = C5working := by
    simp only [hard_trim_context]
    rw [if_neg (by rw [hlen]; omega), hmid, C5working_chars, htrimmid, htail]
    simp [C5working]
  simp only [invokeContextStep, ge_iff_le, le_refl, if_true, hcompact,
    C5working_chars]
  rw [if_pos (by norm_num [MAX_TOTAL_CONTEXT_CHARS])]
  exact htrim

/-- C5 counterexample: after the round-start compaction and hard trim, this
working set still totals 14002 > 12000 characters, yet it has *not* been
reduced to exactly the protected first-two-plus-last-two messages — the
empty-content middle message survives the trim, which skips falsy-content
messages. -/
theorem C5_counterexample :
    ¬(totalChars (invokeContextStep 1 C5working) ≤ MAX_TOTAL_CONTEXT_CHARS
      ∨ invokeContextStep 1 C5working =
          (invokeContextStep 1 C5working).take 2 ++
            (invokeContextStep 1 C5working).drop
              ((invokeContextStep 1 C5working).length - 2)) := by
  rw [C5working_step, C5working_chars]
  intro h
  rcases h with h | h
  · simp [MAX_TOTAL_CONTEXT_CHARS] at h
  · have := congrArg List.length h
    simp [C5working] at this

/-- C5 amended: after the round-start compaction and hard trim, either the
total content size is within the 12000-character hard ceiling, or every
message in the removable middle (strictly between the protected first two and
last two) has empty content — nothing removable remains (when all middle
messages have nonempty content this is exactly the protected minimum); and
`_hard_trim_context` never removes or alters the first two or last two
messages of any working set. -/
theorem C5_amended (round : Nat) (working : List Msg) :
    (totalChars (invokeContextStep round working) ≤ MAX_TOTAL_CONTEXT_CHARS
      ∨ ∀ m ∈ ((invokeContextStep round working).drop 2).take
            ((invokeContextStep round working).length - 4),
          m.content.length = 0)
    ∧ (∀ (w : List Msg) (t : Nat),
        (hard_trim_context w t).take 2 = w.take 2
        ∧ (hard_trim_context w t).drop ((hard_trim_context w t).length - 2)
            = w.drop (w.length - 2)) := by
  -- facts about the two shapes of `hard_trim_context`
  have hsmall : ∀ (w : List Msg) (t : Nat), w.length ≤ 4 →
      hard_trim_context w t = w := by
    intro w t h
    simp [hard_trim_context, h]
  have hbigeq : ∀ (w : List Msg) (t : Nat), 4 < w.length →
      hard_trim_context w t =
        w.take 2 ++ (trimMid t (totalChars w) ((w.drop 2).take (w.length - 4))
          ++ w.drop (w.length - 2)) := by
    intro w t h
    have h' : ¬ w.length ≤ 4 := by omega
    simp [hard_trim_context, h', List.append_assoc]
  -- shape analysis of the trimmed result for a long working set
  have hshape : ∀ (w : List Msg) (t : Nat), 4 < w.length →
      ((hard_trim_context w t).take 2 = w.take 2
       ∧ (hard_trim_context w t).drop 2 =
           trimMid t (totalChars w) ((w.drop 2).take (w.length - 4))
             ++ w.drop (w.length - 2)
       ∧ (hard_trim_context w t).length =
           2 + (trimMid t (totalChars w) ((w.drop 2).take (w.length - 4))).length + 2
       ∧ (hard_trim_context w t).drop ((hard_trim_context w t).length - 2)
           = w.drop (w.length - 2)) := by
    intro w t h
    rw [hbigeq w t h]
    have h2 : (w.take 2).length = 2 := by
      rw [List.length_take]
      omega
    have htl : (w.drop (w.length - 2)).length = 2 := by
      rw [List.length_drop]
      omega
    generalize hA : w.take 2 = A at *
    generalize hM : trimMid t (totalChars w) ((w.drop 2).take (w.length - 4)) = M at *
    generalize hB : w.drop (w.length - 2) = B at *
    refine ⟨?_, ?_, ?_, ?_⟩
    · rw [← h2, List.take_left]
    · rw [← h2, List.drop_left]
    · simp [List.length_append, h2, htl]
      omega
    · have hlenfull : (A ++ (M ++ B)).length - 2 = (A ++ M).length := by
        simp [List.length_append, h2, htl]
        omega
      rw [hlenfull, ← List.append_assoc, List.drop_left]
  constructor
  · -- the budget invariant
    set w1 := if round ≥ 1 then compact_working_context working else working with hw1
    have hstep : invokeContextStep round working =
        (if totalChars w1 > MAX_TOTAL_CONTEXT_CHARS then
          hard_trim_context w1 MAX_TOTAL_CONTEXT_CHARS else w1) := rfl
    rw [hstep]
    by_cases hbig : totalChars w1 > MAX_TOTAL_CONTEXT_CHARS
    · rw [if_pos hbig]
      by_cases hl : w1.length ≤ 4
      · -- nothing removable: the middle of the (unchanged) result is empty
        rw [hsmall w1 MAX_TOTAL_CONTEXT_CHARS hl]
        right
        intro m hm
        have h0 : w1.length - 4 = 0 := by omega
        rw [h0] at hm
        simp at hm
      · have hl' : 4 < w1.length := by omega
        obtain ⟨_, hdrop, hlen, _⟩ := hshape w1 MAX_TOTAL_CONTEXT_CHARS hl'
        have hmidsum : totalChars w1 =
            totalChars (w1.take 2) + (totalChars ((w1.drop 2).take (w1.length - 4))
              + totalChars (w1.drop (w1.length - 2))) := by
          conv_lhs => rw [← working_decomp w1 (by omega)]
          rw [totalChars_append, totalChars_append]
        have hmidle : totalChars ((w1.drop 2).take (w1.length - 4)) ≤ totalChars w1 := by
          omega
        rcases trimMid_spec MAX_TOTAL_CONTEXT_CHARS (totalChars w1)
            ((w1.drop 2).take (w1.length - 4)) hmidle with hok | hempty
        · left
          have hkeptle := trimMid_le MAX_TOTAL_CONTEXT_CHARS (totalChars w1)
            ((w1.drop 2).take (w1.length - 4))
          have htot : totalChars (hard_trim_context w1 MAX_TOTAL_CONTEXT_CHARS) =
              totalChars (w1.take 2)
                + (totalChars (trimMid MAX_TOTAL_CONTEXT_CHARS (totalChars w1)
                    ((w1.drop 2).take (w1.length - 4)))
                  + totalChars (w1.drop (w1.length - 2))) := by
            rw [hbigeq w1 MAX_TOTAL_CONTEXT_CHARS hl', totalChars_append, totalChars_append]
          omega
        · right
          intro m hm
          have hmid : ((hard_trim_context w1 MAX_TOTAL_CONTEXT_CHARS).drop 2).take
              ((hard_trim_context w1 MAX_TOTAL_CONTEXT_CHARS).length - 4) =
              trimMid MAX_TOTAL_CONTEXT_CHARS (totalChars w1)
                ((w1.drop 2).take (w1.length - 4)) := by
            rw [hdrop, hlen]
            rw [show 2 + (trimMid MAX_TOTAL_CONTEXT_CHARS (totalChars w1)
                  ((w1.drop 2).take (w1.length - 4))).length + 2 - 4 =
                (trimMid MAX_TOTAL_CONTEXT_CHARS (totalChars w1)
                  ((w1.drop 2).take (w1.length - 4))).length from by omega]
            exact List.take_left _ _
          rw [hmid] at hm
          exact hempty m hm
    · rw [if_neg hbig]
      left
      omega
  · -- `_hard_trim_context` preserves the first two and the last two messages
    intro w t
    by_cases hl : w.length ≤ 4
    · rw [hsmall w t hl]
      exact ⟨rfl, rfl⟩
    · have hl' : 4 < w.length := by omega
      obtain ⟨htake, _, _, hlast⟩ := hshape w t hl'
      exact ⟨htake, hlast⟩

/-- All tool-call ids issued by `AIMessage`s of a working set. -/
def aiToolCallIds (msgs : List Msg) : List String :=
  msgs.foldr
    (fun m acc =>
      match m with
      | .ai _ tcs => tcs.map ToolCall.id ++ acc
      | _ => acc)
    []

/-- Does the working set contain a `ToolMessage` whose `tool_call_id` has no
issuing `AIMessage` left in the set (an orphaned tool result)? -/
def hasOrphanToolMsg (msgs : List Msg) : Bool :=
  msgs.any fun m =>
    match m with
    | .tool _ id => !(aiToolCallIds msgs).contains id
    | _ => false

/-- A 9000-character `AIMessage` content for the C6 failing input. -/
def bigC : String := String.mk (List.replicate 9000 'A')

/-- A 4000-character tool result for the C6 failing input. -/
def bigT : String := String.mk (List.replicate 4000 'T')

theorem bigC_length : bigC.length = 9000 :=
  List.length_replicate 9000 'A'

theorem bigT_length : bigT.length = 4000 :=
  List.length_replicate 4000 'T'

/-- The C6 failing input: a tool-call-issuing `AIMessage` and its
`ToolMessage` result sit in the removable middle; the pair totals 13009
characters against the 12000 ceiling. -/
def C6working : List Msg :=
  [.system ("ss"), .human ("hh"),
   .ai bigC [⟨"get_data", "", "id1"⟩],
   .tool bigT ("id1"),
   .ai ("done") [], .human ("x")]

/-- C6: `_hard_trim_context` does *not* drop whole pairs: on `C6working` (no
orphans before the trim) it removes only the tool-call-issuing `AIMessage` —
removal stops as soon as the total is under the target — leaving its
`ToolMessage` orphaned, contrary to the claim and to the function's own
docstring ("Removes surrounding AI messages together with their ToolMessages
to avoid orphaned tool_call_ids"). -/
theorem C6_orphaned_tool_result :
    hasOrphanToolMsg C6working = false
    ∧ hard_trim_context C6working MAX_TOTAL_CONTEXT_CHARS
        = [.system ("ss"), .human ("hh"), .tool bigT ("id1"), .ai ("done") [], .human ("x")]
    ∧ hasOrphanToolMsg (hard_trim_context C6working MAX_TOTAL_CONTEXT_CHARS)
        = true := by
  have hchars : totalChars C6working = 13009 := by
    simp only [totalChars, C6working, Msg.content, List.map_cons, List.map_nil,
      List.sum_cons, List.sum_nil, bigC_length, bigT_length]
    decide
  have hlen : C6working.length = 6 := by simp [C6working]
  have hmid : (C6working.drop 2).take (C6working.length - 4)
      = [Msg.ai bigC [⟨"get_data", "", "id1"⟩], Msg.tool bigT ("id1")] := by
    simp [C6working]
  have htail : C6working.drop (C6working.length - 2)
      = [Msg.ai ("done") [], Msg.human ("x")] := by
    simp [C6working]
  have hstep : trimMid MAX_TOTAL_CONTEXT_CHARS 13009
      [Msg.ai bigC [⟨"get_data", "", "id1"⟩], Msg.tool bigT ("id1")]
      = [Msg.tool bigT ("id1")] := by
    simp [trimMid, Msg.content, bigC_length, bigT_length, MAX_TOTAL_CONTEXT_CHARS]
  have htrim : hard_trim_context C6working MAX_TOTAL_CONTEXT_CHARS
      = [.system ("ss"), .human ("hh"), .tool bigT ("id1"), .ai ("done") [], .human ("x")] := by
    simp only [hard_trim_context]
    rw [if_neg (by rw [hlen]; omega), hmid, hchars, hstep, htail]
    simp [C6working]
  refine ⟨?_, htrim, ?_⟩
  · simp [hasOrphanToolMsg, aiToolCallIds, C6working]
  · rw [htrim]
    simp [hasOrphanToolMsg, aiToolCallIds]

/-- Is a decoded JSON value a string? -/
def JVal.isStr : JVal → Bool
  | .str _ => true
  | _ => false

/-- The C2 counterexample state: a PM reply that is valid JSON with a valid
`next_agent` but a *number* as `sub_task`, on a fresh state. -/
def C2state : AgentState :=
  { messages := [.ai ("\x7b\"next_agent\": \"quant_researcher\", \"sub_task\": 5\x7d") []],
    iteration := 0, maxIterations := 10 }

/-- C2 counterexample: on the reply
`{"next_agent": "quant_researcher", "sub_task": 5}` the routing function does
*not* return a route target — the eagerly evaluated logging argument
`sub_task[:80] if sub_task else "(none)"` slices the number 5 and raises
`TypeError`, contradicting the claim that `route_from_pm` never raises for
JSON whose `sub_task` value is not a string. -/
theorem C2_counterexample :
    route_from_pm C2state
      = .error ("TypeError: unsliceable sub_task in logging argument") := rfl

/-- C2 amended: `route_from_pm` terminates normally with a definite route
target for every state and router text *whose successfully parsed `sub_task`
value is a string* — in particular for texts with no JSON, invalid JSON, or a
non-string `next_agent`, all of which resolve through the fallback chain to a
string sub-task (defaulting to `("__end__", "")`).  With a truthy non-string
`sub_task` (e.g. a number) the function raises instead (see the
counterexample). -/
theorem C2_amended (state : AgentState)
    (h : (extract_routing (findPmText state.messages.reverse).data).2.isStr = true) :
    ∃ target, route_from_pm state = .ok target := by
  unfold route_from_pm
  by_cases h1 : state.iteration ≥ state.maxIterations
  · rw [if_pos h1]
    exact ⟨_, rfl⟩
  · rw [if_neg h1]
    by_cases h2 : findPmText state.messages.reverse = ""
    · rw [if_pos h2]
      exact ⟨_, rfl⟩
    · rw [if_neg h2]
      rcases hE : extract_routing (findPmText state.messages.reverse).data with ⟨na, sub⟩
      rw [hE] at h
      cases sub with
      | str s =>
        dsimp only [pyStripAttr, pySliceArg, jTruthy]
        repeat' split
        all_goals first
          | exact ⟨_, rfl⟩
          | (rename_i heq
             split at heq <;> simp at heq)
      | null => simp [JVal.isStr] at h
      | bool b => simp [JVal.isStr] at h
      | num m e => simp [JVal.isStr] at h
      | arr xs => simp [JVal.isStr] at h
      | obj kvs => simp [JVal.isStr] at h
      | nan => simp [JVal.isStr] at h
      | inf b => simp [JVal.isStr] at h

/-- C2 witness: a state whose PM reply parses to a string sub-task; the
amended theorem yields a definite route target. -/
theorem C2_witness :
    ∃ target, route_from_pm
      { messages := [.ai ("\x7b\"next_agent\": \"quant_researcher\", \"sub_task\": \"get prices\"\x7d") []],
        iteration := 0, maxIterations := 10 } = .ok target :=
  C2_amended _ (by decide)

/-- C3: for a state whose `agent_outputs` already contains the specialist `R`
(`R` neither the sentinel nor `"project_manager"`), a parsed routing decision
naming `R` with a whitespace-only sub-task makes `route_from_pm` return
`"__end__"` instead of routing to `R`. -/
theorem C3_reroute_guard (state : AgentState) (R : String) (s : List Char)
    (h1 : ¬ state.iteration ≥ state.maxIterations)
    (h2 : extract_routing (findPmText state.messages.reverse).data = (R, .str s))
    (h3 : R ≠ END_SENTINEL)
    (h4 : R ≠ "project_manager")
    (h5 : state.agentOutputs.any (fun p => p.1 = R) = true)
    (h6 : stripL s = []) :
    route_from_pm state = .ok END_SENTINEL := by
  unfold route_from_pm
  rw [if_neg h1]
  by_cases hp : findPmText state.messages.reverse = ""
  · rw [if_pos hp]
  · rw [if_neg hp, h2]
    dsimp only [pyStripAttr]
    rw [if_pos ⟨h3, h4, h5⟩, if_pos h6]

/-- C3 witness: quant_researcher already reported; the PM re-routes to it
with a whitespace-only sub-task; routing forces `"__end__"`. -/
theorem C3_witness :
    route_from_pm
      { messages := [.ai ("\x7b\"next_agent\": \"quant_researcher\", \"sub_task\": \"  \"\x7d") []],
        iteration := 1, maxIterations := 10,
        agentOutputs := [("quant_researcher", "prior quant report")] }
      = .ok END_SENTINEL :=
  C3_reroute_guard _ ("quant_researcher") ("  ".data)
    (by decide) rfl (by decide) (by decide) (by decide) (by decide)

/-! Helper lemmas for the iteration-cap claim. -/

theorem route_iter_cap (st : AgentState)
    (h : st.iteration ≥ st.maxIterations) :
    route_from_pm st = .ok END_SENTINEL := by
  unfold route_from_pm
  rw [if_pos h]

theorem specialist_node_iteration (role : String)
    (x : Except String AgentDelta) : (specialist_node role x).iteration = none := by
  cases x <;> rfl

theorem graph_run_bound (env : OrchEnv) : ∀ (fuel n : Nat) (st : AgentState),
    graph_run env fuel n st ≤ (st.maxIterations - st.iteration).toNat := by
  intro fuel
  induction fuel with
  | zero =>
    intro n st
    simp [graph_run]
  | succ fuel ih =>
    intro n st
    simp only [graph_run]
    have hit : (applyDelta st (project_manager_node st (env.pmResponse n))).iteration
        = st.iteration + 1 := rfl
    have hmax : (applyDelta st (project_manager_node st (env.pmResponse n))).maxIterations
        = st.maxIterations := rfl
    cases hroute : route_from_pm
        (applyDelta st (project_manager_node st (env.pmResponse n))) with
    | error e =>
      simp
    | ok target =>
      dsimp only
      by_cases htgt : target ∈ SPECIALIST_ROLES
      · rw [if_pos htgt]
        have hlt : ¬ (applyDelta st (project_manager_node st (env.pmResponse n))).iteration
            ≥ (applyDelta st (project_manager_node st (env.pmResponse n))).maxIterations := by
          intro hge
          rw [route_iter_cap _ hge] at hroute
          have : target = END_SENTINEL := by
            injection hroute.symm
          rw [this] at htgt
          exact absurd htgt (by decide)
        rw [hit, hmax] at hlt
        set st2 := applyDelta (applyDelta st (project_manager_node st (env.pmResponse n)))
          (specialist_node target (env.specialistDelta n)) with hst2
        have hit2 : st2.iteration = st.iteration + 1 := by
          rw [hst2]
          show (specialist_node target (env.specialistDelta n)).iteration.getD _
              = st.iteration + 1
          rw [specialist_node_iteration]
          exact hit
        have hmax2 : st2.maxIterations = st.maxIterations := rfl
        have hrec := ih (n + 1) st2
        rw [hit2, hmax2] at hrec
        omega
      · rw [if_neg htgt]
        simp

/-- C1: (a) for every state with `iteration >= max_iterations`,
`route_from_pm` returns the termination sentinel regardless of the PM's
message content; (b) `project_manager_node` increments `iteration` by exactly
1 per PM turn; (c) consequently a task invocation starting at `iteration = 0`
performs at most `max_iterations` specialist hops, whatever the router's
outputs and the specialists' results. -/
theorem C1_iteration_cap :
    (∀ st : AgentState, st.iteration ≥ st.maxIterations →
      route_from_pm st = .ok END_SENTINEL)
    ∧ (∀ (st : AgentState) (resp : String),
      (project_manager_node st resp).iteration = some (st.iteration + 1))
    ∧ (∀ (env : OrchEnv) (fuel : Nat) (st : AgentState),
      st.iteration = 0 → 0 ≤ st.maxIterations →
      (graph_run env fuel 0 st : Int) ≤ st.maxIterations) := by
  refine ⟨route_iter_cap, fun st resp => rfl, ?_⟩
  intro env fuel st h0 hN
  have hb := graph_run_bound env fuel 0 st
  rw [h0] at hb
  omega

/-- An orchestration environment whose router always names a specialist with
a fresh sub-task, for the C1 witness. -/
def C1env : OrchEnv :=
  { pmResponse := fun n =>
      "\x7b\"next_agent\": \"quant_researcher\", \"sub_task\": \"fetch batch "
        ++ toString n ++ "\"\x7d"
    specialistDelta := fun _ =>
      .ok { messages := [.ai ("report") []]
            currentAgent := some ("quant_researcher")
            results := [{ agent := "quant_researcher", summary := "report",
                          toolCallsMade := 1 }]
            agentOutputs := some [("quant_researcher", "report")] } }

/-- C1 witness: the cap branch at `iteration = max_iterations = 7`, the
increment at a concrete state, and the hop bound for `max_iterations = 3`
under a router that always names a specialist. -/
theorem C1_witness :
    route_from_pm { iteration := 7, maxIterations := 7 } = .ok END_SENTINEL
    ∧ (project_manager_node { iteration := 2 } "go").iteration = some 3
    ∧ (graph_run C1env 10 0 { iteration := 0, maxIterations := 3 } : Int) ≤ 3 :=
  ⟨C1_iteration_cap.1 _ (by decide),
   C1_iteration_cap.2.1 { iteration := 2 } "go",
   C1_iteration_cap.2.2 C1env 10 _ rfl (by decide)⟩

/-! Helper lemmas and concrete environments for the round-budget claim. -/

theorem execToolCalls_llmCalls (env : InvokeEnv) (tools : List String) :
    ∀ (l : List ToolCall) (s : LoopSt),
      (execToolCalls env tools l s).llmCalls = s.llmCalls := by
  intro l
  induction l with
  | nil => intro s; rfl
  | cons tc rest ih =>
    intro s
    simp only [execToolCalls]
    rw [ih]

theorem invokeLoop_attempts (env : InvokeEnv) (tools : List String) :
    ∀ (remaining round : Nat) (s : LoopSt),
      (invokeLoop env tools remaining round s).llmAttempts
        ≤ s.llmCalls + remaining := by
  intro remaining
  induction remaining with
  | zero =>
    intro round s
    simp [invokeLoop, loopExit]
  | succ remaining ih =>
    intro round s
    simp only [invokeLoop]
    repeat' split
    all_goals first
      | (refine le_trans (ih _ _) ?_
         try rw [execToolCalls_llmCalls]
         try dsimp only
         omega)
      | (try simp only [loopExit]
         try dsimp only
         omega)

/-- C7 amended: a timeout-triggered fallback retry advances to the next
iteration of the `for _round in range(_MAX_TOOL_ROUNDS)` loop, so timed-out
attempts count against the round budget: every `BaseAgent.invoke` run makes
at most `_MAX_TOOL_ROUNDS` (3) `llm.invoke` attempts in total, timed-out
attempts included — each timeout really does reduce the remaining tool-call
rounds by one. -/
theorem C7_amended (env : InvokeEnv) (tools : List String) (role : String)
    (sys_msg human_msg : Msg) :
    (base_invoke env tools role sys_msg human_msg).2 ≤ MAX_TOOL_ROUNDS := by
  have h := invokeLoop_attempts env tools MAX_TOOL_ROUNDS 0
    { working := [sys_msg, human_msg], newMessages := [], toolCallsMade := 0,
      emptyRetries := 0, llmCalls := 0, fbCalls := 0, toolExecs := 0 }
  simp only [base_invoke]
  split <;> simpa using h

/-- The tool call every scripted response of the C7 counterexample issues. -/
def C7tool : ToolCall := ⟨"toolA", "\x7b\x7d", "id0"⟩

/-- Scripted LLM outcomes with a fallback model always available and a fixed
tool result. -/
def C7scripted (steps : List LLMOutcome) : InvokeEnv :=
  { llm := fun n => (steps.drop n).headD (.exc ("end of script"))
    fallbackModel := fun _ => some ("fallback-model")
    toolResult := fun _ => .ok ("\x7b\"price\": 150.0\x7d") }

/-- Three tool-calling responses followed by a final synthesis. -/
def C7steps : List LLMOutcome :=
  [.resp ("x") [C7tool], .resp ("y") [C7tool], .resp ("z") [C7tool], .resp ("w") []]

/-- `AIMessage` count of the delta produced by one invoke run. -/
def C7aiCount (env : InvokeEnv) : Nat :=
  match base_invoke env ["toolA"] "quant_researcher" (.system ("SYS")) (.human ("Task")) with
  | (.ok d, _) => (d.messages.filter Msg.isAi).length
  | (.error _, _) => 0

/-- C7 counterexample: under the scripted outcomes `C7steps` the agent gets 3
model responses; prepending a single hard timeout (with a fallback model
available) leaves only 2 — the timeout-triggered fallback retry *does* reduce
the number of remaining tool-call rounds, contrary to the claim. -/
theorem C7_counterexample :
    C7aiCount (C7scripted C7steps) = 3
    ∧ C7aiCount (C7scripted (.timeout :: C7steps)) = 2
    ∧ (2 : Nat) ≠ 3 := by
  refine ⟨rfl, rfl, by decide⟩

/-! Helper lemmas for the regex-recovery claim. -/

/-- `rstrip` keeps a string ending in a non-whitespace character intact. -/
theorem rstripL_append_nonws (ys : List Char) (c : Char) (h : ¬ isPyWs c = true) :
    rstripL (ys ++ [c]) = ys ++ [c] := by
  unfold rstripL
  rw [List.reverse_append]
  simp only [List.reverse_cons, List.reverse_nil, List.nil_append, List.singleton_append]
  rw [lstripL, if_neg h]
  simp

/-- A JSON string scan fails on a body that contains a raw newline and no
quote or backslash before it, whatever follows. -/
theorem scanStr_fail (s : List Char) (rest : List Char)
    (hq : '"' ∉ s) (hb : '\\' ∉ s) (hn : '\n' ∈ s) :
    scanStr (s ++ rest) = none := by
  induction s with
  | nil => simp at hn
  | cons c cs ih =>
    have hcq : c ≠ '"' := fun he => hq (he ▸ List.mem_cons_self _ _)
    have hcb : c ≠ '\\' := fun he => hb (he ▸ List.mem_cons_self _ _)
    rw [List.cons_append, scanStr.eq_def]
    dsimp only
    rw [if_neg hcq, if_neg hcb]
    by_cases hctl : c.toNat < 0x20
    · rw [if_pos hctl]
    · rw [if_neg hctl]
      have hcn : c ≠ '\n' := by
        intro he
        rw [he] at hctl
        exact hctl (by decide)
      have hn' : '\n' ∈ cs := by
        rcases List.mem_cons.mp hn with h | h
        · exact absurd h.symm hcn
        · exact h
      rw [ih (fun hx => hq (List.mem_cons_of_mem _ hx))
        (fun hx => hb (List.mem_cons_of_mem _ hx)) hn']

/-- The trailing-punctuation `re.sub` is the identity on a string without a
quote. -/
theorem reSubTrailing_id (s : List Char) (hq : '"' ∉ s) :
    reSubTrailing s = s := by
  induction s with
  | nil => rfl
  | cons c cs ih =>
    have hcq : c ≠ '"' := fun he => hq (he ▸ List.mem_cons_self _ _)
    rw [reSubTrailing, if_neg (by simp [hcq])]
    rw [ih (fun hx => hq (List.mem_cons_of_mem _ hx))]

/-- A fenced-block search whose opener starts with a backtick fails on a text
with no backtick. -/
theorem searchFence_none (op : List Char) (text : List Char)
    (h : '`' ∉ text) : searchFence ('`' :: op) text = none := by
  induction text with
  | nil => rfl
  | cons c cs ih =>
    have hc : c ≠ '`' := fun he => h (he ▸ List.mem_cons_self _ _)
    rw [searchFence, matchLit, if_neg hc]
    exact ih (fun hx => h (List.mem_cons_of_mem _ hx))

/-- Evaluation of `_extract_routing` down its targeted-regex fallback: when
both fenced-block patterns fail, the whole text is not valid JSON, and the two
targeted regexes capture `cap` (an already-normalised valid role) and `g`, the
result is `cap` together with the captured sub-task after `rstrip`, trailing
`"}`/`"` stripping, and the trailing-punctuation `re.sub`. -/
theorem extract_routing_regex_path (text cap g : List Char)
    (h1 : searchFence ("```json".data) text = none)
    (h2 : searchFence ("```".data) text = none)
    (h3 : jParse (stripL text) = none)
    (h4 : searchNextAgent text = some cap)
    (h5 : searchSubTask text = some g)
    (hcap : lowerL (stripL cap) = cap)
    (hsyn : (["end", "__end__", "done", "finish", "complete"].any
        (fun w => w.data = cap)) = false)
    (hvalid : (VALID_TARGETS.any (fun t => t.data = cap)) = true) :
    extract_routing text = (String.mk cap, .str (
      reSubTrailing (
        if endsWithL ['"', '}'] (rstripL g) then (rstripL g).take ((rstripL g).length - 2)
        else if endsWithL ['"'] (rstripL g) then (rstripL g).take ((rstripL g).length - 1)
        else rstripL g))) := by
  simp only [extract_routing, h1, h2, h3, h4, h5, hcap, Option.bind, hsyn,
    Bool.false_eq_true, if_false, hvalid, if_true]

/-- A fenced-block search fails on a backtick-free text whenever the opening
literal starts with a backtick (both fence openers do). -/
theorem searchFence_none' (op text : List Char)
    (hop : op.head? = some '`') (h : '`' ∉ text) : searchFence op text = none := by
  cases op with
  | nil => simp at hop
  | cons c cs =>
    obtain rfl : c = '`' := by simpa using hop
    exact searchFence_none cs text h

/-- When `parseVal` fails at every fuel, `json.loads` fails. -/
theorem jParse_none_of_parseVal (cs : List Char)
    (h : ∀ F, parseVal F cs = none) : jParse cs = none := by
  unfold jParse
  rw [h]

/-- The canonical router output of the regex-recovery claim: a JSON object
naming `next_agent` and carrying `sub_task` as a (possibly newline-broken)
string value. -/
def c4Text (r : String) (s : List Char) : List Char :=
  "\x7b\"next_agent\": \"".data ++ r.data ++ "\", \"sub_task\": \"".data
    ++ s ++ "\"\x7d".data

/-- The canonical text is already stripped: it starts with a brace and ends
with a brace. -/
theorem stripL_c4 (R : String) (s : List Char) :
    stripL (c4Text R s) = c4Text R s := by
  have hform : c4Text R s
      = '{' :: (("\"next_agent\": \"".data ++ R.data ++ "\", \"sub_task\": \"".data
          ++ s ++ ['"']) ++ ['}']) := by
    simp [c4Text]
  rw [stripL, hform]
  simp only [lstripL]
  rw [if_neg (by decide)]
  rw [← List.cons_append, rstripL_append_nonws _ _ (by decide), List.cons_append]

/-- Post-processing step of the C4 proof: given the five evaluation facts
about the canonical text, `_extract_routing` returns the role and exactly the
sub-task `s` (the captured group is `s` plus the closing `"}`, which the
rstrip/endswith/re.sub chain strips). -/
theorem c4_post (R : String) (s : List Char)
    (hq : '"' ∉ s)
    (h1 : searchFence ("```json".data) (c4Text R s) = none)
    (h2 : searchFence ("```".data) (c4Text R s) = none)
    (h3 : jParse (stripL (c4Text R s)) = none)
    (h4 : searchNextAgent (c4Text R s) = some R.data)
    (h5 : searchSubTask (c4Text R s) = some (s ++ ['"', '}']))
    (hcap : lowerL (stripL R.data) = R.data)
    (hsyn : (["end", "__end__", "done", "finish", "complete"].any
        (fun w => w.data = R.data)) = false)
    (hvalid : (VALID_TARGETS.any (fun t => t.data = R.data)) = true) :
    extract_routing (c4Text R s) = (R, .str s) := by
  rw [extract_routing_regex_path _ _ _ h1 h2 h3 h4 h5 hcap hsyn hvalid]
  have hg : rstripL (s ++ ['"', '}']) = s ++ ['"', '}'] := by
    have hsplit : s ++ ['"', '}'] = (s ++ ['"']) ++ ['}'] := by simp
    rw [hsplit, rstripL_append_nonws _ _ (by decide), ← hsplit]
  rw [hg]
  have hend : endsWithL ['"', '}'] (s ++ ['"', '}']) = true := by
    unfold endsWithL startsWithL
    rw [List.reverse_append]
    simp [matchLit]
  rw [if_pos hend]
  have hlen : (s ++ ['"', '}']).length - 2 = s.length := by simp
  rw [hlen, List.take_left, reSubTrailing_id s hq]

/-- C4: for every valid role name `r` and every `sub_task` string value `s`
containing an unescaped literal newline (and, as a JSON string value broken by
it, no quote, backslash, or fence backtick), the canonical router output
`{"next_agent": "r", "sub_task": "s"}` defeats `json.loads`, and
`_extract_routing` still returns the named role together with the non-empty
sub-task `s`, recovered by the regex fallback with the trailing `"}`
punctuation stripped. -/
theorem C4_regex_newline_recovery (r : String) (s : List Char)
    (hr : r ∈ ALL_ROLES)
    (hn : '\n' ∈ s) (hq : '"' ∉ s) (hb : '\\' ∉ s) (ht : '`' ∉ s) :
    extract_routing (c4Text r s) = (r, .str s) ∧ s ≠ [] := by
  refine ⟨?_, List.ne_nil_of_mem hn⟩
  have hscan : scanStr (s ++ "\"\x7d".data) = none :=
    scanStr_fail s ("\"\x7d".data) hq hb hn
  simp only [ALL_ROLES, List.mem_cons, List.not_mem_nil, or_false] at hr
  rcases hr with rfl | rfl | rfl | rfl | rfl <;>
    (refine c4_post _ s hq ?_ ?_ ?_ ?_ ?_ (by decide) (by decide) (by decide) <;>
      first
        | exact searchFence_none' _ _ (by decide)
            (by simp [c4Text]; exact ht)
        | (rw [stripL_c4]
           refine jParse_none_of_parseVal _ ?_
           intro F
           rcases F with _ | _ | _ | _ | F <;>
             simp [c4Text, parseVal, parseMembers, scanStr, jsonLstrip, isJsonWs,
               matchLit, dictSet, hscan])
        | simp [c4Text, searchNextAgent, searchSubTask, naTail, stTail,
            scanNoQuote, matchLit, lstripL, isPyWs])

/-- C4 witness: the concrete newline-broken reply routing to
`quant_researcher` with the two-line sub-task `line one\nline two`. -/
theorem C4_witness :
    ('\n' ∈ ("line one\nline two".data) ∧ '"' ∉ ("line one\nline two".data))
    ∧ extract_routing (c4Text ("quant_researcher") ("line one\nline two".data))
        = ("quant_researcher", .str ("line one\nline two".data))
    ∧ "line one\nline two".data ≠ [] :=
  ⟨⟨by decide, by decide⟩,
   (C4_regex_newline_recovery ("quant_researcher") ("line one\nline two".data)
     (by decide) (by decide) (by decide) (by decide) (by decide)).1,
   (C4_regex_newline_recovery ("quant_researcher") ("line one\nline two".data)
     (by decide) (by decide) (by decide) (by decide) (by decide)).2⟩

end Cecil
